import Mathlib

/-!
Shallow embedding of `calliope/constraints/base.py` (constraint-assembly
engine of the calliope energy-model framework) and proofs about the
constraints it emits.

Each Pyomo constraint rule becomes a Lean function from an explicit
parameter record (the resolved option values, set memberships and the
values of the decision variables at the index tuple under consideration)
to the constraint it emits.  A constraint is represented by the comparison
operator together with the rational values of its two sides at a given
variable assignment; `none` stands for Pyomo's
`Constraint.NoConstraint` / `Constraint.Skip` / a rule returning `None`.
Rules that can raise Python exceptions return `Except CalliopeError _`.
Python float values that may be `np.inf` are represented by `PVal`;
finite numeric option values (including the Python booleans that compare
equal to numbers) live in `ℚ`.  Timestep durations are modelled as
natural numbers of base time units so that the storage-decay power
`(1 - s_loss) ** duration` stays rational.
-/

deriving instance DecidableEq for Except

namespace Calliope

/-- Comparison operator of an emitted Pyomo constraint. -/
inductive Comparison where
  | eq
  | le
  | ge
deriving DecidableEq, Repr

/-- A Pyomo constraint evaluated at a variable assignment: the comparison
together with the rational values of its left and right side. -/
structure EmittedConstraint where
  cmp : Comparison
  lhs : ℚ
  rhs : ℚ
deriving DecidableEq, Repr

/-- Satisfaction of an emitted constraint. -/
def EmittedConstraint.holds (c : EmittedConstraint) : Prop :=
  match c.cmp with
  | Comparison.eq => c.lhs = c.rhs
  | Comparison.le => c.lhs ≤ c.rhs
  | Comparison.ge => c.rhs ≤ c.lhs

instance (c : EmittedConstraint) : Decidable c.holds := by
  unfold EmittedConstraint.holds
  cases c.cmp <;> infer_instance

/-- Exceptions raised during constraint construction
(`exceptions.OptionNotSetError`, `exceptions.ModelError`). -/
inductive CalliopeError where
  | optionNotSet
  | modelError
deriving DecidableEq, Repr

/-- A Python float option value that may be `np.inf`.  Finite values
(including Python `False`, which compares equal to `0` in every numeric
context the source uses) are rationals. -/
inductive PVal where
  | fin (q : ℚ)
  | inf
deriving DecidableEq, Repr

/-- Python truthiness of a numeric option value: `0`/`0.0`/`False` are
falsy, every other number and `inf` are truthy. -/
def PVal.isTruthy : PVal → Bool
  | PVal.fin q => q ≠ 0
  | PVal.inf => true

/-! ## `node_resource`: resource coupling (`c_rs_rule`) -/

/-- Inputs of `c_rs_rule` for one `(y, x, t)`: resolved options,
group memberships and the values of the variables it references. -/
structure RsParams where
  /-- `m.r[y, x, t]`, the resource time-series value. -/
  r : ℚ
  /-- option `y.constraints.r_scale` at `x`. -/
  r_scale : ℚ
  /-- resolved constraint param `r_eff`. -/
  r_eff : ℚ
  /-- resolved constraint param `force_r` (truthiness). -/
  force_r : Bool
  /-- `y in model.get_group_members('supply')`. -/
  inSupply : Bool
  /-- `y in model.get_group_members('unmet_demand')`. -/
  inUnmetDemand : Bool
  /-- `y in model.get_group_members('demand')`. -/
  inDemand : Bool
  /-- value of variable `m.r_area[y, x]`. -/
  r_area : ℚ
  /-- value of variable `m.rs[y, x, t]`. -/
  rs : ℚ

/-- `c_rs_rule` from `node_resource`: links the exogenous resource series
to the resource-to-storage flow `rs`.  Returning `none` models the Python
rule falling off the end (no constraint). -/
def c_rs_rule (p : RsParams) : Option EmittedConstraint :=
  let r_avail := p.r * p.r_scale * p.r_area * p.r_eff
  if p.force_r then
    some ⟨Comparison.eq, p.rs, r_avail⟩
  else if p.inSupply || p.inUnmetDemand then
    some ⟨Comparison.le, p.rs, r_avail⟩
  else if p.inDemand then
    some ⟨Comparison.ge, p.rs, r_avail⟩
  else
    none

/-! ## `node_energy_balance`: transmission, conversion and
primary/storage balance -/

/-- Inputs of `transmission_rule` and its helper
`get_e_eff_per_distance` for one `(y, x, t)`. -/
structure TransParams where
  /-- `y_remote in m.y_trans` for the remote pair of `(y, x)`. -/
  remoteIsTrans : Bool
  /-- resolved constraint param `e_eff`. -/
  e_eff : ℚ
  /-- value of variable `m.es_prod[c, y, x, t]` for the tech's carrier. -/
  es_prod : ℚ
  /-- value of variable `m.es_con[c, y_remote, x_remote, t]`. -/
  es_con_remote : ℚ
  /-- option `y.constraints_per_distance.e_loss` at `x`. -/
  e_loss : ℚ
  /-- option `y.per_distance`. -/
  per_distance : ℚ
  /-- whether a link entry exists for the pair of locations
  (`link` is not falsy). -/
  linkExists : Bool
  /-- `link.get_key(tech + '.distance')`: `none` models the `KeyError`
  of an undefined distance. -/
  distance : Option ℚ

/-- `get_e_eff_per_distance` from `node_energy_balance`: the
distance-derating factor for a transmission link, raising
`OptionNotSetError` when the distance is undefined but a per-distance
loss is configured. -/
def get_e_eff_per_distance (p : TransParams) : Except CalliopeError ℚ :=
  if ¬ p.linkExists then
    Except.ok 1
  else
    match p.distance with
    | none =>
        if p.e_loss > 0 then
          Except.error CalliopeError.optionNotSet
        else
          Except.ok 1
    | some distance => Except.ok (1 - p.e_loss * (distance / p.per_distance))

/-- `transmission_rule` from `node_energy_balance`: balance between the
two endpoints of a transmission link. -/
def transmission_rule (p : TransParams) :
    Except CalliopeError (Option EmittedConstraint) :=
  if p.remoteIsTrans then
    match get_e_eff_per_distance p with
    | Except.error e => Except.error e
    | Except.ok d =>
        Except.ok (some ⟨Comparison.eq, p.es_prod,
          -1 * p.es_con_remote * p.e_eff * d⟩)
  else
    Except.ok none

/-- Inputs of `conversion_rule` for one `(y, x, t)`. -/
structure ConversionParams where
  /-- value of variable `m.es_prod[c_prod, y, x, t]`. -/
  es_prod : ℚ
  /-- value of variable `m.es_con[c_source, y, x, t]`. -/
  es_con_source : ℚ
  /-- resolved constraint param `e_eff`. -/
  e_eff : ℚ
  /-- truthiness of option `y.export` at `x`. -/
  exportEnabled : Bool
  /-- value of variable `m.export[y, x, t]`. -/
  exportVar : ℚ

/-- `conversion_rule` from `node_energy_balance`. -/
def conversion_rule (p : ConversionParams) : EmittedConstraint :=
  let exportTerm := if p.exportEnabled then p.exportVar else 0
  ⟨Comparison.eq, p.es_prod + exportTerm, -1 * p.es_con_source * p.e_eff⟩

/-- Inputs of `pc_rule` for one `(y, x, t)`. -/
structure PcParams where
  /-- the carrier set `m.c`. -/
  carriers : List String
  /-- values of `m.es_prod[c, y, x, t]` as a function of the carrier. -/
  es_prod : String → ℚ
  /-- values of `m.es_con[c, y, x, t]` as a function of the carrier. -/
  es_con : String → ℚ
  /-- resolved constraint param `e_eff`. -/
  e_eff : ℚ
  /-- `y in m.y_rb`. -/
  inYRb : Bool
  /-- value of variable `m.rbs[y, x, t]`. -/
  rbs : ℚ
  /-- truthiness of option `y.export` at `x`. -/
  exportEnabled : Bool
  /-- value of variable `m.export[y, x, t]`. -/
  exportVar : ℚ
  /-- option `y.constraints.s_cap.max` at `x` (may be `inf`). -/
  s_cap_max : PVal
  /-- resolved constraint param `use_s_time` (truthiness). -/
  use_s_time : Bool
  /-- `y in model.get_group_members('storage')`. -/
  inStorageGroup : Bool
  /-- value of variable `m.rs[y, x, t]`. -/
  rsVar : ℚ
  /-- `m.t.order_dict[t] == 0`: `t` is the first timestep. -/
  tIsFirst : Bool
  /-- `m.s_init[y, x]`, the configured initial storage level. -/
  s_init : ℚ
  /-- resolved constraint param `s_loss`. -/
  s_loss : ℚ
  /-- `time_res.at[model.prev_t(t)]`, the duration of the previous
  timestep, in base time units. -/
  prevTimeRes : ℕ
  /-- value of variable `m.s[y, x, model.prev_t(t)]`. -/
  sPrev : ℚ
  /-- value of variable `m.s[y, x, t]`. -/
  sCur : ℚ

/-- `pc_rule` from `node_energy_balance`: the primary balance for
storage-capable technologies (`y_pc`), either the storage-free
pass-through (case A) or the storage recurrence (case B). -/
def pc_rule (p : PcParams) : EmittedConstraint :=
  let e_prod :=
    if p.e_eff = 0 then 0 else (p.carriers.map p.es_prod).sum / p.e_eff
  let e_con := (p.carriers.map p.es_con).sum * p.e_eff
  let rbs := if p.inYRb then p.rbs else 0
  let exportTerm := if p.exportEnabled then p.exportVar / p.e_eff else 0
  if p.s_cap_max = PVal.fin 0 ∧ ¬ p.use_s_time then
    -- A) no storage allowed
    ⟨Comparison.eq, p.rsVar, e_prod + e_con + exportTerm - rbs⟩
  else
    -- B) storage allowed
    let rs := if p.inStorageGroup then 0 else p.rsVar
    let s_minus_one :=
      if p.tIsFirst then p.s_init
      else (1 - p.s_loss) ^ p.prevTimeRes * p.sPrev
    ⟨Comparison.eq, p.sCur, s_minus_one + rs + rbs - e_prod - e_con - exportTerm⟩

/-! ## `node_constraints_build`: the shared capacity-bound helper -/

/-- The constraint returned by `get_var_constraint`: an equality, a
two-sided bound tuple `(_min, model_var, _max)` (with `hi = none` when
the upper bound was disabled), or `Constraint.NoConstraint`. -/
inductive VarConstraint where
  | eqC (rhs : ℚ)
  | range (lo : PVal) (hi : Option ℚ)
  | noC
deriving DecidableEq, Repr

/-- One of the three `if not _arg: _arg = model.get_option(...)` lines of
`get_var_constraint`: a passed argument that is `None` or falsy is
replaced by the option-store value. -/
def pyArgResolve (arg : Option PVal) (opt : PVal) : PVal :=
  match arg with
  | some v => if v.isTruthy then v else opt
  | none => opt

/-- Multiplication of an option value by the scale factor
(`scale * _equals` etc.; numpy maps a positive scale times `inf`
to `inf`). -/
def pscale (s : ℚ) : PVal → PVal
  | PVal.fin q => PVal.fin (s * q)
  | PVal.inf => PVal.inf

/-- Inputs of `get_var_constraint`: the evaluation mode, the optional
positional arguments `_equals`/`_max`/`_min`/`scale` (Python `None`
modelled as `none`) and the option-store values consulted when an
argument is absent or falsy. -/
structure GvcArgs where
  /-- `model.mode == 'operate'`. -/
  modeOperate : Bool
  /-- passed argument `_equals`. -/
  arg_equals : Option PVal
  /-- passed argument `_max`. -/
  arg_max : Option PVal
  /-- passed argument `_min`. -/
  arg_min : Option PVal
  /-- option `y.constraints.<var>.equals` at `x`. -/
  opt_equals : PVal
  /-- option `y.constraints.<var>.max` at `x`. -/
  opt_max : PVal
  /-- option `y.constraints.<var>.min` at `x`. -/
  opt_min : PVal
  /-- passed argument `scale`. -/
  scale : Option ℚ

/-- The resolved and scaled `(_equals, _max, _min)` triple of
`get_var_constraint` just before the branch on `_equals`. -/
def gvcResolved (a : GvcArgs) : PVal × PVal × PVal :=
  let e0 := pyArgResolve a.arg_equals a.opt_equals
  let mx0 := pyArgResolve a.arg_max a.opt_max
  let mn0 := pyArgResolve a.arg_min a.opt_min
  match a.scale with
  | some s =>
      if s = 0 then (e0, mx0, mn0)
      else (pscale s e0, pscale s mx0, pscale s mn0)
  | none => (e0, mx0, mn0)

/-- The `if np.isinf(_max): _max = None` step of the planning branch:
an infinite upper bound becomes `None` (no upper bound). -/
def pvalToUpper : PVal → Option ℚ
  | PVal.inf => none
  | PVal.fin q => some q

/-- `get_var_constraint` from `node_constraints_build`: resolves the
`(equals, min, max)` triple for a capacity variable, raising a
`ModelError` for an infinite (truthy) `equals` value. -/
def get_var_constraint (a : GvcArgs) : Except CalliopeError VarConstraint :=
  if ((gvcResolved a).1).isTruthy then
    match (gvcResolved a).1 with
    | PVal.inf => Except.error CalliopeError.modelError
    | PVal.fin q => Except.ok (VarConstraint.eqC q)
  else if a.modeOperate then
    match (gvcResolved a).2.1 with
    | PVal.inf => Except.ok VarConstraint.noC
    | PVal.fin q => Except.ok (VarConstraint.eqC q)
  else
    if (gvcResolved a).2.2 = PVal.fin 0 ∧ pvalToUpper (gvcResolved a).2.1 = none then
      Except.ok VarConstraint.noC
    else
      Except.ok
        (VarConstraint.range (gvcResolved a).2.2 (pvalToUpper (gvcResolved a).2.1))

/-! ## `node_constraints_operational`: `c_es_con_max_rule` -/

/-- Inputs of `c_es_con_max_rule` for one `(c, y, x, t)`. -/
structure EsConMaxParams where
  /-- `y in m.y_conv`. -/
  inYConv : Bool
  /-- resolved constraint param `e_con` is (identically) `True`. -/
  e_con_true : Bool
  /-- `c == model.get_option(y + '.carrier')`. -/
  carrierMatches : Bool
  /-- value of variable `m.es_con[c, y, x, t]`. -/
  es_con : ℚ
  /-- `time_res.at[t]`, the duration of timestep `t`. -/
  time_res : ℚ
  /-- value of variable `m.e_cap[y, x]`. -/
  e_cap : ℚ

/-- `c_es_con_max_rule` from `node_constraints_operational`: skipped for
conversion technologies, a capacity-based lower bound for the matching
carrier with consumption enabled, and `es_con == 0` otherwise. -/
def c_es_con_max_rule (p : EsConMaxParams) : Option EmittedConstraint :=
  if p.inYConv then
    none
  else if p.e_con_true && p.carrierMatches then
    some ⟨Comparison.ge, p.es_con, -1 * p.time_res * p.e_cap⟩
  else
    some ⟨Comparison.eq, p.es_con, 0⟩

/-! ## Variable domains

`m.es_con` and `m.ec_con` are declared `within=po.NegativeReals`.  For a
continuous variable, Pyomo enforces a virtual domain set through the
bounds it contributes to the built model; `NegativeReals` contributes
the bounds `(None, 0)`, i.e. an upper bound of zero and no lower bound.
These predicates embed exactly that enforced domain restriction. -/

/-- The bound restriction Pyomo's `NegativeReals` domain places on a
continuous variable in the built model: value at most `0`. -/
def negativeRealsBound (q : ℚ) : Prop := q ≤ 0

/-- Domain restriction of `m.es_con[c, y, x, t]`
(`within=po.NegativeReals`). -/
def es_con_domain (q : ℚ) : Prop := negativeRealsBound q

/-- Domain restriction of `m.ec_con[c, y, x, t]`
(`within=po.NegativeReals`). -/
def ec_con_domain (q : ℚ) : Prop := negativeRealsBound q

/-! ## `node_parasitics` -/

/-- Inputs of `c_ec_prod_rule` / `c_ec_con_rule` for one `(c, y, x, t)`
with `y` in the parasitic set `y_p`. -/
structure ParasiticParams where
  /-- `y in m.y_trans`. -/
  inYTrans : Bool
  /-- `y in m.y_conv`. -/
  inYConv : Bool
  /-- option `y.constraints.c_eff` at `x`. -/
  c_eff : ℚ
  /-- value of variable `m.es_prod[c, y, x, t]`. -/
  es_prod : ℚ
  /-- value of variable `m.es_con[c, y, x, t]`. -/
  es_con : ℚ
  /-- value of variable `m.ec_prod[c, y, x, t]`. -/
  ec_prod : ℚ
  /-- value of variable `m.ec_con[c, y, x, t]`. -/
  ec_con : ℚ

/-- `c_ec_prod_rule` from `node_parasitics`: post-parasitic production. -/
def c_ec_prod_rule (p : ParasiticParams) : EmittedConstraint :=
  ⟨Comparison.eq, p.ec_prod, p.es_prod * p.c_eff⟩

/-- `c_ec_con_rule` from `node_parasitics`: post-parasitic consumption,
with `c_eff` overridden to `1.0` for transmission and conversion
technologies, and forced to zero when the effective `c_eff` is not
positive. -/
def c_ec_con_rule (p : ParasiticParams) : EmittedConstraint :=
  let c_eff := if p.inYTrans || p.inYConv then 1 else p.c_eff
  if c_eff > 0 then
    ⟨Comparison.eq, p.ec_con, p.es_con / c_eff⟩
  else
    ⟨Comparison.eq, p.ec_con, 0⟩

/-! ## `node_costs` -/

/-- Inputs of `_check_and_set` for one cost quantity at `(y, x, k)`. -/
structure CheckSetParams where
  /-- `y in m.y_trans`. -/
  inYTrans : Bool
  /-- `_cost(cost, y, k, x)`, the static unit cost. -/
  staticCost : ℚ
  /-- `_cost_per_distance(cost, y, k, x)`, the distance-proportional
  unit cost. -/
  perDistanceCost : ℚ
  /-- `(y, x) in getattr(m, 'c_' + cost).keys()`: a bound constraint for
  the corresponding capacity variable exists at `(y, x)`. -/
  hasBoundConstraint : Bool
  /-- value of the capacity variable `getattr(m, cost)[y, x]`. -/
  capVar : ℚ

/-- The unit cost computed by `_check_and_set`: for transmission
technologies the static plus distance-proportional cost, halved because
construction is counted at both link ends. -/
def check_and_set_unit_cost (p : CheckSetParams) : ℚ :=
  if p.inYTrans then (p.staticCost + p.perDistanceCost) / 2
  else p.staticCost

/-- `_check_and_set` from `node_costs`: returns the cost term
`unit_cost * capacity_variable`, or raises `OptionNotSetError` when the
unit cost is negative and no bound constraint exists. -/
def check_and_set (p : CheckSetParams) : Except CalliopeError ℚ :=
  let unit_cost := check_and_set_unit_cost p
  if p.hasBoundConstraint || unit_cost ≥ 0 then
    Except.ok (unit_cost * p.capVar)
  else
    Except.error CalliopeError.optionNotSet

/-- Values of the four cost variables at one `(y, x, k)`. -/
structure CostVals where
  /-- value of variable `m.cost[y, x, k]`. -/
  cost : ℚ
  /-- value of variable `m.cost_con[y, x, k]`. -/
  cost_con : ℚ
  /-- value of variable `m.cost_op_fixed[y, x, k]`. -/
  cost_op_fixed : ℚ
  /-- value of variable `m.cost_op_variable[y, x, k]`. -/
  cost_op_variable : ℚ

/-- `c_cost_rule` from `node_costs`: total cost assembly. -/
def c_cost_rule (v : CostVals) : EmittedConstraint :=
  ⟨Comparison.eq, v.cost, v.cost_con + v.cost_op_fixed + v.cost_op_variable⟩

/-- Inputs of `c_cost_op_fixed_rule` for one `(y, x, k)`. -/
structure OmFixedParams where
  /-- `y in m.y`. -/
  inY : Bool
  /-- `_cost('om_fixed', y, k, x)`. -/
  om_fixed : ℚ
  /-- `_cost('om_frac', y, k, x)`. -/
  om_frac : ℚ
  /-- `(y, x) in m.c_e_cap.keys()`: a bound constraint for `e_cap`
  exists at `(y, x)`. -/
  eCapHasBound : Bool
  /-- `sum(time_res * weights) / 8760`, the annualisation factor. -/
  annualisation : ℚ
  /-- value of variable `m.e_cap[y, x]`. -/
  e_cap : ℚ
  /-- value of variable `m.cost_con[y, x, k]`. -/
  cost_con : ℚ
  /-- value of variable `m.cost_op_fixed[y, x, k]`. -/
  cost_op_fixed : ℚ

/-- `c_cost_op_fixed_rule` from `node_costs`: fixed operating cost,
raising `OptionNotSetError` when the `om_fixed` unit cost is negative
and no `e_cap` bound constraint exists. -/
def c_cost_op_fixed_rule (p : OmFixedParams) :
    Except CalliopeError EmittedConstraint :=
  if p.inY then
    if p.om_fixed < 0 ∧ ¬ p.eCapHasBound then
      Except.error CalliopeError.optionNotSet
    else
      Except.ok ⟨Comparison.eq, p.cost_op_fixed,
        p.om_frac * p.cost_con + p.om_fixed * p.e_cap * p.annualisation⟩
  else
    Except.ok ⟨Comparison.eq, p.cost_op_fixed, 0⟩

/-! ## `model_constraints`: hierarchical system balance

The location table (`model._locations` with its `_within` parent column)
describes a forest; we embed a location together with its `_within`
subtree as a tree, so that `get_children`'s recursion is structural. -/

/-- A location and the subtree of locations `_within` it. -/
inductive LocTree where
  | node (locName : String) (children : List LocTree)

/-- The location's identifier. -/
def LocTree.locName : LocTree → String
  | LocTree.node n _ => n

/-- The location's direct children (rows with `_within == parent`). -/
def LocTree.childrenList : LocTree → List LocTree
  | LocTree.node _ cs => cs

mutual

/-- `get_children(parent)` from `model_constraints` with its default
`childless_only=True`: the direct children `i` of `parent` for which
`len(get_children(i)) == 0`, i.e. which have no such children
themselves (the recursive filter of the source). -/
def get_children : LocTree → List LocTree
  | LocTree.node _ cs => getChildrenFilter cs

/-- The list comprehension
`[i for i in children if len(get_children(i)) == 0]`. -/
def getChildrenFilter : List LocTree → List LocTree
  | [] => []
  | c :: rest =>
      if (get_children c).isEmpty then c :: getChildrenFilter rest
      else getChildrenFilter rest

end

mutual

/-- Every descendant (at any depth) of the root that has no children of
its own: the "childless descendants" in the words of the specification. -/
def leafDescendants : LocTree → List LocTree
  | LocTree.node _ cs => leafDescendantsAux cs

/-- Collects the leaf descendants of every tree in the list. -/
def leafDescendantsAux : List LocTree → List LocTree
  | [] => []
  | c :: rest =>
      (if c.childrenList.isEmpty then [c] else leafDescendants c)
      ++ leafDescendantsAux rest

end

/-- The variable values and technology sets referenced by
`c_system_balance_rule`; each flow is a function of
`(carrier, technology, location, timestep)`. -/
structure BalanceEnv where
  /-- the non-parasitic technology set `m.y_np`. -/
  y_np : List String
  /-- the parasitic technology set `m.y_p`. -/
  y_p : List String
  /-- values of `m.es_prod[c, y, xs, t]`. -/
  es_prod : String → String → String → ℕ → ℚ
  /-- values of `m.ec_prod[c, y, xs, t]`. -/
  ec_prod : String → String → String → ℕ → ℚ
  /-- values of `m.es_con[c, y, xs, t]`. -/
  es_con : String → String → String → ℕ → ℚ
  /-- values of `m.ec_con[c, y, xs, t]`. -/
  ec_con : String → String → String → ℕ → ℚ

/-- The four-part balance sum of `c_system_balance_rule` over a family
of location names. -/
def balanceSum (env : BalanceEnv) (c : String) (family : List String)
    (t : ℕ) : ℚ :=
  (family.map (fun xs => (env.y_np.map (fun y => env.es_prod c y xs t)).sum)).sum
  + (family.map (fun xs => (env.y_p.map (fun y => env.ec_prod c y xs t)).sum)).sum
  + (family.map (fun xs => (env.y_np.map (fun y => env.es_con c y xs t)).sum)).sum
  + (family.map (fun xs => (env.y_p.map (fun y => env.ec_con c y xs t)).sum)).sum

/-- `c_system_balance_rule` from `model_constraints`: `x` is the
location (with its subtree) and `level` its `_locations` `_level`
entry. -/
def c_system_balance_rule (env : BalanceEnv) (c : String) (x : LocTree)
    (level : ℕ) (t : ℕ) : Option EmittedConstraint :=
  if level = 0 ∨ 0 < (get_children x).length then
    let family := (get_children x).map LocTree.locName ++ [x.locName]
    let balance := balanceSum env c family t
    if c = "power" then some ⟨Comparison.eq, balance, 0⟩
    else some ⟨Comparison.ge, balance, 0⟩
  else
    none

/-- The system-balance rule as the specification's words describe it:
the family is the location plus all its childless descendants (at any
depth), and a constraint is emitted whenever the location is top-level
or has at least one childless descendant.  Used to compare the
specification against `c_system_balance_rule`. -/
def c_system_balance_rule_specModel (env : BalanceEnv) (c : String)
    (x : LocTree) (level : ℕ) (t : ℕ) : Option EmittedConstraint :=
  if level = 0 ∨ 0 < (leafDescendants x).length then
    let family := (leafDescendants x).map LocTree.locName ++ [x.locName]
    let balance := balanceSum env c family t
    if c = "power" then some ⟨Comparison.eq, balance, 0⟩
    else some ⟨Comparison.ge, balance, 0⟩
  else
    none

/-! ## Theorems -/

/-- C2: for every technology/location/cost-class triple, `c_cost_rule`
emits exactly the equality `cost == cost_con + cost_op_fixed +
cost_op_variable`, so the total cost satisfies the constraint precisely
when it equals the sum of its three constituent components. -/
theorem c_cost_rule_total_is_sum (v : CostVals) :
    c_cost_rule v =
      ⟨Comparison.eq, v.cost, v.cost_con + v.cost_op_fixed + v.cost_op_variable⟩
    ∧ ((c_cost_rule v).holds ↔
        v.cost = v.cost_con + v.cost_op_fixed + v.cost_op_variable) :=
  ⟨rfl, Iff.rfl⟩

/-- C3: for every resource-consuming technology/location/timestep, with
`r_avail = r * r_scale * r_area * r_eff`, `c_rs_rule` emits exactly one
of: `rs == r_avail` when `force_r` is set; otherwise `rs <= r_avail`
for members of the supply or unmet_demand group; otherwise
`rs >= r_avail` for members of the demand group; and no constraint at
all when the technology matches none of these conditions. -/
theorem c_rs_rule_cases (p : RsParams) :
    (p.force_r = true →
      c_rs_rule p =
        some ⟨Comparison.eq, p.rs, p.r * p.r_scale * p.r_area * p.r_eff⟩) ∧
    (p.force_r = false → (p.inSupply = true ∨ p.inUnmetDemand = true) →
      c_rs_rule p =
        some ⟨Comparison.le, p.rs, p.r * p.r_scale * p.r_area * p.r_eff⟩) ∧
    (p.force_r = false → p.inSupply = false → p.inUnmetDemand = false →
      p.inDemand = true →
      c_rs_rule p =
        some ⟨Comparison.ge, p.rs, p.r * p.r_scale * p.r_area * p.r_eff⟩) ∧
    (p.force_r = false → p.inSupply = false → p.inUnmetDemand = false →
      p.inDemand = false →
      c_rs_rule p = none) := by
  refine ⟨fun h => by simp [c_rs_rule, h], fun h1 h2 => ?_,
    fun h1 h2 h3 h4 => by simp [c_rs_rule, h1, h2, h3, h4],
    fun h1 h2 h3 h4 => by simp [c_rs_rule, h1, h2, h3, h4]⟩
  rcases h2 with h | h <;> simp [c_rs_rule, h1, h]

/-- Witness for C3: a technology forcing exact resource use yields the
equality constraint at a concrete input. -/
theorem c_rs_rule_cases_witness :
    c_rs_rule ⟨100, 1, 1, true, false, false, false, 2, 7⟩ =
      some ⟨Comparison.eq, 7, 100 * 1 * 2 * 1⟩ :=
  (c_rs_rule_cases ⟨100, 1, 1, true, false, false, false, 2, 7⟩).1 rfl

/-- C10: `get_var_constraint` tests the `equals`/`max`/`min` values for
truthiness rather than for being unset, so an explicitly passed or
configured value of `0` is replaced by (or treated as) the absent case:
with `equals` set to `0` the helper does not emit `variable == 0` but
falls through to the operate-mode `max` fallback and, in planning mode,
to the two-sided bound. -/
theorem get_var_constraint_zero_equals_falls_through :
    (∀ opt : PVal, pyArgResolve (some (PVal.fin 0)) opt = opt) ∧
    (PVal.fin 0).isTruthy = false ∧
    get_var_constraint
      ⟨true, some (PVal.fin 0), none, none, PVal.fin 0, PVal.fin 5,
        PVal.fin 0, none⟩ = Except.ok (VarConstraint.eqC 5) ∧
    get_var_constraint
      ⟨false, some (PVal.fin 0), none, none, PVal.fin 0, PVal.fin 5,
        PVal.fin 2, none⟩ =
      Except.ok (VarConstraint.range (PVal.fin 2) (some 5)) ∧
    get_var_constraint
      ⟨true, some (PVal.fin 0), none, none, PVal.fin 0, PVal.fin 5,
        PVal.fin 0, none⟩ ≠ Except.ok (VarConstraint.eqC 0) := by
  refine ⟨fun opt => rfl, rfl, by decide, by decide, by decide⟩

/-- C1: for every storage-capable technology/location/timestep for
which storage is allowed (`s_cap.max` is not `0` or `use_s_time` is
set), `pc_rule` emits exactly the balance
`s == s_minus_one + rs + rbs - e_prod - e_con - export`, where
`s_minus_one` is the decayed previous storage level
`(1 - s_loss) ^ duration(prev_t) * s[prev_t]` (the configured initial
level at the first timestep), `rs` is replaced by `0` for storage-group
technologies, `rbs` by `0` outside `y_rb`, the export term (export flow
over `e_eff`) by `0` when export is not enabled, and
`e_prod = (Σ_c es_prod) / e_eff` (`0` when `e_eff == 0`) while
`e_con = (Σ_c es_con) * e_eff`. -/
theorem pc_rule_storage_recurrence (p : PcParams)
    (h : p.s_cap_max ≠ PVal.fin 0 ∨ p.use_s_time = true) :
    pc_rule p = ⟨Comparison.eq, p.sCur,
      (if p.tIsFirst then p.s_init
        else (1 - p.s_loss) ^ p.prevTimeRes * p.sPrev)
      + (if p.inStorageGroup then 0 else p.rsVar)
      + (if p.inYRb then p.rbs else 0)
      - (if p.e_eff = 0 then 0 else (p.carriers.map p.es_prod).sum / p.e_eff)
      - (p.carriers.map p.es_con).sum * p.e_eff
      - (if p.exportEnabled then p.exportVar / p.e_eff else 0)⟩ := by
  have h' : ¬ (p.s_cap_max = PVal.fin 0 ∧ ¬ p.use_s_time = true) := by
    rcases h with h | h
    · exact fun hc => h hc.1
    · exact fun hc => hc.2 h
  simp only [pc_rule, if_neg h']

/-- Witness for C1: the storage recurrence at a concrete non-first
timestep with `s_loss = 1/100`, previous duration `1`, previous level
`10`, flows and export enabled. -/
theorem pc_rule_storage_recurrence_witness :
    pc_rule ⟨["power"], fun _ => 9, fun _ => -4, 2, true, 3, true, 5,
      PVal.inf, false, false, 7, false, 0, 1/100, 1, 10, 11⟩ =
      ⟨Comparison.eq, 11, 209/10⟩ := by
  have h := pc_rule_storage_recurrence
    ⟨["power"], fun _ => 9, fun _ => -4, 2, true, 3, true, 5,
      PVal.inf, false, false, 7, false, 0, 1/100, 1, 10, 11⟩
    (Or.inl (by decide))
  rw [h]
  norm_num

/-- C4: during cost assembly, a negative unit cost for a capacity
quantity raises `OptionNotSetError` if and only if no bound constraint
for the corresponding capacity variable exists at `(y, x)`; with such a
bound the cost term is the unit cost times the capacity variable with
its sign preserved, the unit cost for transmission technologies being
the static plus distance-proportional cost halved; the `om_fixed` cost
in `c_cost_op_fixed_rule` is guarded the same way against the `e_cap`
bound. -/
theorem negative_cost_guard :
    (∀ p : CheckSetParams,
      (p.inYTrans = true →
        check_and_set_unit_cost p = (p.staticCost + p.perDistanceCost) / 2) ∧
      (p.inYTrans = false → check_and_set_unit_cost p = p.staticCost) ∧
      (check_and_set_unit_cost p < 0 →
        (check_and_set p = Except.error CalliopeError.optionNotSet ↔
          p.hasBoundConstraint = false)) ∧
      (p.hasBoundConstraint = true →
        check_and_set p = Except.ok (check_and_set_unit_cost p * p.capVar))) ∧
    (∀ q : OmFixedParams, q.inY = true →
      (c_cost_op_fixed_rule q = Except.error CalliopeError.optionNotSet ↔
        q.om_fixed < 0 ∧ q.eCapHasBound = false) ∧
      (q.eCapHasBound = true →
        c_cost_op_fixed_rule q = Except.ok ⟨Comparison.eq, q.cost_op_fixed,
          q.om_frac * q.cost_con + q.om_fixed * q.e_cap * q.annualisation⟩)) := by
  constructor
  · intro p
    refine ⟨fun h => by simp [check_and_set_unit_cost, h],
      fun h => by simp [check_and_set_unit_cost, h], fun hneg => ?_, fun hb => ?_⟩
    · cases hb : p.hasBoundConstraint <;>
        simp [check_and_set, hb, not_le.mpr hneg]
    · simp [check_and_set, hb]
  · intro q hy
    constructor
    · cases hb : q.eCapHasBound <;>
        cases hneg : decide (q.om_fixed < 0) <;>
        simp_all [c_cost_op_fixed_rule, hy]
    · intro hb
      simp [c_cost_op_fixed_rule, hy, hb]

/-- Witness for C4: a negative unit cost of `-3` is accepted with a
bound constraint present and rejected without one; a transmission unit
cost is halved; a negative `om_fixed` without an `e_cap` bound raises. -/
theorem negative_cost_guard_witness :
    check_and_set ⟨false, -3, 0, true, 4⟩ =
      Except.ok (check_and_set_unit_cost ⟨false, -3, 0, true, 4⟩ * 4) ∧
    check_and_set ⟨false, -3, 0, false, 4⟩ =
      Except.error CalliopeError.optionNotSet ∧
    check_and_set_unit_cost ⟨true, 2, 4, true, 1⟩ = (2 + 4) / 2 ∧
    c_cost_op_fixed_rule ⟨true, -1, 0, false, 1, 1, 1, 1⟩ =
      Except.error CalliopeError.optionNotSet := by
  refine ⟨(negative_cost_guard.1 ⟨false, -3, 0, true, 4⟩).2.2.2 rfl,
    ((negative_cost_guard.1 ⟨false, -3, 0, false, 4⟩).2.2.1 (by decide)).mpr rfl,
    (negative_cost_guard.1 ⟨true, 2, 4, true, 1⟩).1 rfl,
    ((negative_cost_guard.2 ⟨true, -1, 0, false, 1, 1, 1, 1⟩ rfl).1).mpr
      ⟨by norm_num, rfl⟩⟩

/-- C5: `get_var_constraint` resolves a capacity bound by strict
precedence: a truthy resolved-and-scaled `equals` forces the equality
(an infinite `equals` raises a fatal model error); otherwise in operate
mode the constraint is `variable == max`, with no constraint when `max`
is infinite; otherwise, in planning mode, a two-sided bound
`min <= variable <= max` is emitted with an infinite `max` treated as
no upper bound, and no constraint at all when `min` is zero and `max`
is unbounded. -/
theorem get_var_constraint_cases (a : GvcArgs) :
    (∀ q : ℚ, (gvcResolved a).1 = PVal.fin q → q ≠ 0 →
      get_var_constraint a = Except.ok (VarConstraint.eqC q)) ∧
    ((gvcResolved a).1 = PVal.inf →
      get_var_constraint a = Except.error CalliopeError.modelError) ∧
    (∀ q : ℚ, (gvcResolved a).1.isTruthy = false → a.modeOperate = true →
      (gvcResolved a).2.1 = PVal.fin q →
      get_var_constraint a = Except.ok (VarConstraint.eqC q)) ∧
    ((gvcResolved a).1.isTruthy = false → a.modeOperate = true →
      (gvcResolved a).2.1 = PVal.inf →
      get_var_constraint a = Except.ok VarConstraint.noC) ∧
    ((gvcResolved a).1.isTruthy = false → a.modeOperate = false →
      (gvcResolved a).2.2 = PVal.fin 0 → (gvcResolved a).2.1 = PVal.inf →
      get_var_constraint a = Except.ok VarConstraint.noC) ∧
    (∀ q : ℚ, (gvcResolved a).1.isTruthy = false → a.modeOperate = false →
      (gvcResolved a).2.1 = PVal.fin q →
      get_var_constraint a =
        Except.ok (VarConstraint.range (gvcResolved a).2.2 (some q))) ∧
    ((gvcResolved a).1.isTruthy = false → a.modeOperate = false →
      (gvcResolved a).2.1 = PVal.inf → (gvcResolved a).2.2 ≠ PVal.fin 0 →
      get_var_constraint a = Except.ok (VarConstraint.range (gvcResolved a).2.2 none)) := by
  refine ⟨fun q h hq => ?_, fun h => ?_, fun q ht hm h => ?_,
    fun ht hm h => ?_, fun ht hm hmin h => ?_, fun q ht hm h => ?_,
    fun ht hm h hmin => ?_⟩ <;>
    simp_all [get_var_constraint, PVal.isTruthy, pvalToUpper]

/-- Witness for C5: the four constraint shapes at concrete inputs: a
forced equality from `equals = 3`, a fatal error from `equals = inf`,
the operate-mode `max` fallback, and the planning-mode omission for
`min = 0`, `max = inf`. -/
theorem get_var_constraint_cases_witness :
    get_var_constraint
      ⟨false, none, none, none, PVal.fin 3, PVal.inf, PVal.fin 0, none⟩ =
      Except.ok (VarConstraint.eqC 3) ∧
    get_var_constraint
      ⟨false, none, none, none, PVal.inf, PVal.fin 1, PVal.fin 0, none⟩ =
      Except.error CalliopeError.modelError ∧
    get_var_constraint
      ⟨true, none, none, none, PVal.fin 0, PVal.fin 7, PVal.fin 0, none⟩ =
      Except.ok (VarConstraint.eqC 7) ∧
    get_var_constraint
      ⟨false, none, none, none, PVal.fin 0, PVal.inf, PVal.fin 0, none⟩ =
      Except.ok VarConstraint.noC := by
  refine ⟨(get_var_constraint_cases
      ⟨false, none, none, none, PVal.fin 3, PVal.inf, PVal.fin 0, none⟩).1
      3 rfl (by norm_num),
    (get_var_constraint_cases
      ⟨false, none, none, none, PVal.inf, PVal.fin 1, PVal.fin 0, none⟩).2.1 rfl,
    (get_var_constraint_cases
      ⟨true, none, none, none, PVal.fin 0, PVal.fin 7, PVal.fin 0, none⟩).2.2.1
      7 rfl rfl rfl,
    (get_var_constraint_cases
      ⟨false, none, none, none, PVal.fin 0, PVal.inf, PVal.fin 0, none⟩).2.2.2.2.1
      rfl rfl rfl rfl⟩

/-- C6: for a transmission technology whose remote pair is itself a
transmission technology, `transmission_rule` emits
`es_prod == -1 * es_con_remote * e_eff * d`, where the distance
derating `d` is `1 - e_loss * distance / per_distance` for a link with
a defined distance, `1.0` when no link exists or when the distance is
undefined with `e_loss == 0`, and an undefined distance with
`e_loss > 0` raises a fatal `OptionNotSetError`; no constraint is
emitted when the remote is not a transmission technology. -/
theorem transmission_rule_cases (p : TransParams) :
    (p.remoteIsTrans = false → transmission_rule p = Except.ok none) ∧
    (∀ dist : ℚ, p.remoteIsTrans = true → p.linkExists = true →
      p.distance = some dist →
      transmission_rule p = Except.ok (some ⟨Comparison.eq, p.es_prod,
        -1 * p.es_con_remote * p.e_eff *
          (1 - p.e_loss * (dist / p.per_distance))⟩)) ∧
    (p.remoteIsTrans = true → p.linkExists = false →
      transmission_rule p = Except.ok (some ⟨Comparison.eq, p.es_prod,
        -1 * p.es_con_remote * p.e_eff * 1⟩)) ∧
    (p.remoteIsTrans = true → p.linkExists = true → p.distance = none →
      p.e_loss = 0 →
      transmission_rule p = Except.ok (some ⟨Comparison.eq, p.es_prod,
        -1 * p.es_con_remote * p.e_eff * 1⟩)) ∧
    (p.linkExists = true → p.distance = none → 0 < p.e_loss →
      get_e_eff_per_distance p = Except.error CalliopeError.optionNotSet ∧
      (p.remoteIsTrans = true →
        transmission_rule p = Except.error CalliopeError.optionNotSet)) := by
  refine ⟨fun h => by simp [transmission_rule, h],
    fun dist h hl hd => by
      simp [transmission_rule, get_e_eff_per_distance, h, hl, hd],
    fun h hl => by simp [transmission_rule, get_e_eff_per_distance, h, hl],
    fun h hl hd hz => by
      simp [transmission_rule, get_e_eff_per_distance, h, hl, hd, hz],
    fun hl hd hz => ?_⟩
  have hgd : get_e_eff_per_distance p = Except.error CalliopeError.optionNotSet := by
    simp [get_e_eff_per_distance, hl, hd, hz]
  exact ⟨hgd, fun h => by simp [transmission_rule, h, hgd]⟩

/-- Witness for C6: a link of distance `20` with `e_loss = 1/10` and
`per_distance = 100` derates the remote consumption by `49/50`. -/
theorem transmission_rule_cases_witness :
    transmission_rule ⟨true, 9/10, 5, -6, 1/10, 100, true, some 20⟩ =
      Except.ok (some ⟨Comparison.eq, 5, -1 * -6 * (9/10) * (49/50)⟩) := by
  have h := (transmission_rule_cases
    ⟨true, 9/10, 5, -6, 1/10, 100, true, some 20⟩).2.1 20 rfl rfl rfl
  rw [h]
  norm_num

/-- C8: for every parasitic technology, `c_ec_prod_rule` emits
`ec_prod == es_prod * c_eff` and `c_ec_con_rule` emits
`ec_con == es_con / c_eff` with `ec_con` forced to `0` when
`c_eff <= 0`, except that the consumption rule overrides `c_eff` with
`1.0` for transmission and conversion technologies (yielding
`ec_con == es_con`), so their own balance efficiency is not
double-counted. -/
theorem parasitic_conversion_cases (p : ParasiticParams) :
    (c_ec_prod_rule p = ⟨Comparison.eq, p.ec_prod, p.es_prod * p.c_eff⟩) ∧
    (p.inYTrans = false → p.inYConv = false → 0 < p.c_eff →
      c_ec_con_rule p = ⟨Comparison.eq, p.ec_con, p.es_con / p.c_eff⟩) ∧
    (p.inYTrans = false → p.inYConv = false → p.c_eff ≤ 0 →
      c_ec_con_rule p = ⟨Comparison.eq, p.ec_con, 0⟩) ∧
    ((p.inYTrans = true ∨ p.inYConv = true) →
      c_ec_con_rule p = ⟨Comparison.eq, p.ec_con, p.es_con⟩) := by
  refine ⟨rfl, fun ht hc hpos => by simp [c_ec_con_rule, ht, hc, hpos],
    fun ht hc hnp => by simp [c_ec_con_rule, ht, hc, not_lt.mpr hnp],
    fun h => ?_⟩
  rcases h with h | h <;> simp [c_ec_con_rule, h]

/-- Witness for C8: the three consumption branches and the production
rule at concrete inputs (`c_eff = 2`, a conversion technology, and a
zero `c_eff`). -/
theorem parasitic_conversion_cases_witness :
    c_ec_prod_rule ⟨false, false, 2, 3, -8, 6, -4⟩ =
      ⟨Comparison.eq, 6, 3 * 2⟩ ∧
    c_ec_con_rule ⟨false, false, 2, 3, -8, 6, -4⟩ =
      ⟨Comparison.eq, -4, -8 / 2⟩ ∧
    c_ec_con_rule ⟨false, false, 0, 3, -8, 6, -4⟩ =
      ⟨Comparison.eq, -4, 0⟩ ∧
    c_ec_con_rule ⟨false, true, 2, 3, -8, 6, -4⟩ =
      ⟨Comparison.eq, -4, -8⟩ := by
  refine ⟨(parasitic_conversion_cases ⟨false, false, 2, 3, -8, 6, -4⟩).1,
    (parasitic_conversion_cases ⟨false, false, 2, 3, -8, 6, -4⟩).2.1
      rfl rfl (by norm_num),
    (parasitic_conversion_cases ⟨false, false, 0, 3, -8, 6, -4⟩).2.2.1
      rfl rfl le_rfl,
    (parasitic_conversion_cases ⟨false, true, 2, 3, -8, 6, -4⟩).2.2.2
      (Or.inr rfl)⟩

/-- C9: the `NegativeReals` domain of `es_con` and `ec_con` restricts
the built model's variables to non-positive values (Pyomo enforces a
continuous virtual set through its bounds, here an upper bound of `0`),
and this restriction is compatible with the constraints that refer to
them: every constraint emitted by `c_es_con_max_rule` (including the
branch forcing `es_con == 0` for mismatched carriers) is satisfiable by
an in-domain value, and the `c_ec_con_rule` constraint (including its
zero branch for non-positive parasitic efficiency) maps an in-domain
`es_con` to an in-domain `ec_con`. -/
theorem es_con_nonpositive_domain :
    (∀ q : ℚ, es_con_domain q ↔ q ≤ 0) ∧
    (∀ q : ℚ, ec_con_domain q ↔ q ≤ 0) ∧
    es_con_domain 0 ∧ ec_con_domain 0 ∧
    (∀ p : EsConMaxParams, 0 ≤ p.time_res → 0 ≤ p.e_cap →
      ∃ v : ℚ, es_con_domain v ∧
        ∀ ec ∈ c_es_con_max_rule
          ⟨p.inYConv, p.e_con_true, p.carrierMatches, v, p.time_res, p.e_cap⟩,
          ec.holds) ∧
    (∀ p : EsConMaxParams, p.inYConv = false →
      (p.e_con_true && p.carrierMatches) = false →
      c_es_con_max_rule p = some ⟨Comparison.eq, p.es_con, 0⟩) ∧
    (∀ p : ParasiticParams, es_con_domain p.es_con →
      (c_ec_con_rule p).holds → ec_con_domain p.ec_con) := by
  refine ⟨fun q => Iff.rfl, fun q => Iff.rfl, le_rfl, le_rfl,
    fun p ht hc => ?_, fun p h1 h2 => ?_, fun p hes hholds => ?_⟩
  · refine ⟨0, le_rfl, ?_⟩
    intro ec hec
    by_cases hconv : p.inYConv = true
    · simp [c_es_con_max_rule, hconv] at hec
    · have hconv' : p.inYConv = false := by
        revert hconv
        cases p.inYConv <;> simp
      by_cases hb : (p.e_con_true && p.carrierMatches) = true
      · simp [c_es_con_max_rule, hconv', hb] at hec
        subst hec
        simp only [EmittedConstraint.holds]
        nlinarith [mul_nonneg ht hc]
      · have hb' : (p.e_con_true && p.carrierMatches) = false := by
          revert hb
          cases (p.e_con_true && p.carrierMatches) <;> simp
        simp [c_es_con_max_rule, hconv', hb'] at hec
        subst hec
        rfl
  · simp [c_es_con_max_rule, h1, h2]
  · simp only [c_ec_con_rule] at hholds
    by_cases hb : (p.inYTrans || p.inYConv) = true
    · rw [if_pos hb] at hholds
      rw [if_pos one_pos] at hholds
      have he : p.ec_con = p.es_con / 1 := hholds
      simp only [ec_con_domain, negativeRealsBound, he, div_one]
      exact hes
    · rw [if_neg hb] at hholds
      by_cases hpos : 0 < p.c_eff
      · rw [if_pos hpos] at hholds
        have he : p.ec_con = p.es_con / p.c_eff := hholds
        have : p.es_con / p.c_eff ≤ 0 :=
          div_nonpos_of_nonpos_of_nonneg hes hpos.le
        simp only [ec_con_domain, negativeRealsBound, he]
        exact this
      · rw [if_neg hpos] at hholds
        have he : p.ec_con = 0 := hholds
        simp [ec_con_domain, negativeRealsBound, he]

/-- Witness for C9: the consumption bound at `time_res = 1`,
`e_cap = 2` is satisfied by the in-domain value `0`, and the parasitic
constraint `-2 == -6 / 3` keeps `ec_con` in the non-positive domain. -/
theorem es_con_nonpositive_domain_witness :
    (∃ v : ℚ, es_con_domain v ∧
      ∀ ec ∈ c_es_con_max_rule ⟨false, true, true, v, 1, 2⟩, ec.holds) ∧
    ec_con_domain (-2) := by
  refine ⟨es_con_nonpositive_domain.2.2.2.2.1 ⟨false, true, true, -5, 1, 2⟩
      (by norm_num) (by norm_num),
    es_con_nonpositive_domain.2.2.2.2.2.2 ⟨false, false, 3, 0, -6, 0, -2⟩
      (by norm_num [es_con_domain, negativeRealsBound])
      (by norm_num [c_ec_con_rule, EmittedConstraint.holds])⟩

/-- A balance environment with one non-parasitic technology and all
flows zero, used to exercise the system-balance rule on concrete
location trees. -/
def zeroEnv : BalanceEnv :=
  ⟨["supply_tech"], [], fun _ _ _ _ => 0, fun _ _ _ _ => 0,
    fun _ _ _ _ => 0, fun _ _ _ _ => 0⟩

/-- Counterexample to C7 as stated: in the three-level hierarchy
`x1 -> x2 -> x3` the location `x1` (level 1) has the childless
descendant `x3`, so the claim demands a balance constraint over
`{x1, x3}`; but `get_children` keeps only direct children whose own
childless-filtered child list is empty, which excludes `x2`, so the
source emits no constraint at `x1` at all. -/
theorem c_system_balance_descendants_counterexample :
    c_system_balance_rule zeroEnv "power"
      (LocTree.node "x1" [LocTree.node "x2" [LocTree.node "x3" []]]) 1 0 =
      none ∧
    c_system_balance_rule_specModel zeroEnv "power"
      (LocTree.node "x1" [LocTree.node "x2" [LocTree.node "x3" []]]) 1 0 =
      some ⟨Comparison.eq, 0, 0⟩ := by
  have h3 : get_children (LocTree.node "x3" []) = [] := by
    rw [get_children]
    rw [getChildrenFilter]
  have h2 : get_children (LocTree.node "x2" [LocTree.node "x3" []]) =
      [LocTree.node "x3" []] := by
    rw [get_children, getChildrenFilter]
    simp [h3, getChildrenFilter]
  have h1 : get_children
      (LocTree.node "x1" [LocTree.node "x2" [LocTree.node "x3" []]]) = [] := by
    rw [get_children, getChildrenFilter]
    simp [h2, getChildrenFilter]
  constructor
  · simp [c_system_balance_rule, h1]
  · have hl : leafDescendants
        (LocTree.node "x1" [LocTree.node "x2" [LocTree.node "x3" []]]) =
        [LocTree.node "x3" []] := by
      rw [leafDescendants, leafDescendantsAux]
      simp [LocTree.childrenList, leafDescendants, leafDescendantsAux]
    simp [c_system_balance_rule_specModel, hl, balanceSum, zeroEnv,
      LocTree.locName]

/-- C7 amended: for every carrier, location and timestep where the
location is top-level (level 0) or `get_children` returns at least one
location (a direct child whose own childless-filtered child list is
empty), the balance sums `es_prod`/`es_con` over non-parasitic and
`ec_prod`/`ec_con` over parasitic technologies across the location and
those `get_children` members, requiring the sum to equal zero for the
primary carrier `power` and to be non-negative otherwise; any other
location gets no constraint. -/
theorem c_system_balance_rule_cases (env : BalanceEnv) (c : String)
    (x : LocTree) (level : ℕ) (t : ℕ) :
    (level = 0 ∨ 0 < (get_children x).length → c = "power" →
      c_system_balance_rule env c x level t =
        some ⟨Comparison.eq,
          balanceSum env c ((get_children x).map LocTree.locName ++ [x.locName]) t,
          0⟩) ∧
    (level = 0 ∨ 0 < (get_children x).length → c ≠ "power" →
      c_system_balance_rule env c x level t =
        some ⟨Comparison.ge,
          balanceSum env c ((get_children x).map LocTree.locName ++ [x.locName]) t,
          0⟩) ∧
    (¬ (level = 0 ∨ 0 < (get_children x).length) →
      c_system_balance_rule env c x level t = none) := by
  refine ⟨fun h hc => by simp [c_system_balance_rule, h, hc],
    fun h hc => by simp [c_system_balance_rule, h, hc],
    fun h => by simp [c_system_balance_rule, h]⟩

/-- Witness for the amended C7: at a top-level location with one leaf
child and all flows zero, the emitted power balance is `0 == 0`. -/
theorem c_system_balance_rule_cases_witness :
    c_system_balance_rule zeroEnv "power"
      (LocTree.node "x0" [LocTree.node "x1" []]) 0 0 =
      some ⟨Comparison.eq, 0, 0⟩ := by
  have h := (c_system_balance_rule_cases zeroEnv "power"
    (LocTree.node "x0" [LocTree.node "x1" []]) 0 0).1 (Or.inl rfl) rfl
  rw [h]
  have h1 : get_children (LocTree.node "x1" []) = [] := by
    rw [get_children]
    rw [getChildrenFilter]
  have h0 : get_children (LocTree.node "x0" [LocTree.node "x1" []]) =
      [LocTree.node "x1" []] := by
    rw [get_children, getChildrenFilter]
    simp [h1, getChildrenFilter]
  simp [h0, balanceSum, zeroEnv, LocTree.locName]

end Calliope
